import Mathlib

/-!
Shallow embedding of the explicitly cancellable future of
`src/shed/more_futures/src/cancellation/future.rs`.

The subsystem is a state machine shared between a task (the
`ExplicitlyCancellableFuture`), its `CancellationHandle`, and the
`ExecutionContext` threaded into the user computation.  We embed it as a
single record `Sys` holding the shared state (lifecycle variant plus the
atomic `cancelled` flag), the execution context (notification channel
sub-state plus the `prevent_cancellation` counter), the future's `started`
latch, and ghost fields that record observable history: the values sent on
the reply channel, the location of the reply channel's sender, how many
times the stored waker was woken, how many times the cancellation
notification fired and how many times the inner future was polled.

The user computation is abstracted by what it does during one inner poll:
a list of `CtxOp` interactions with the execution context (entering and
leaving critical sections or structured-cancellation sections, consuming a
guard via `try_to_disable_cancellation`, or even invoking `cancel` on a
handle it holds), followed by the inner poll result (`none` for pending,
`some v` for ready).  Quantifying over these lists covers every behaviour
a real inner future can exhibit at the poll boundaries the source code
observes.  Fallible situations (consuming an absent guard, the
`unreachable!` branch of `cancel`) are modelled with `Option`.
-/

set_option autoImplicit false

namespace CancellationCore

/-- Terminal status delivered on the reply channel (source: `TerminationStatus`). -/
inductive TerminationStatus where
  | Finished
  | Cancelled
  | ExecutorShutdown
deriving DecidableEq, Repr

/-- Lifecycle state of the shared state (source: `State`).  The waker stored in
`Polled` and the sender stored in `Cancelled` are tracked by the ghost fields
`wakes` and `senderLoc` of `Sys`. -/
inductive State where
  | Pending
  | Polled
  | Cancelled
  | Exited
deriving DecidableEq, Repr

/-- Sub-state of the one-shot cancellation notification
(source: `CancellationNotification`).  `Pending` holds the live sender,
`Notified` means the `()` was sent, `Disabled` parks the sender forever. -/
inductive CancellationNotification where
  | Pending
  | Notified
  | Disabled
deriving DecidableEq, Repr

/-- Where the reply channel's `oneshot::Sender<TerminationStatus>` currently
lives: still inside the `CancellationHandle`, moved into `State::Cancelled`,
consumed by a `send`, or dropped without sending. -/
inductive SenderLoc where
  | handle
  | state
  | used
  | dropped
deriving DecidableEq, Repr

/-- source: `ExecutionContextData`.  `tx` is `cancellation_notification.tx`;
`liveGuards`, `notifSends` and `permHolds` are ghost fields counting the live
`CriticalSectionGuard`s, the `()` sends on the notification channel, and the
successful `try_to_disable_cancellation` calls (each of which retired a guard
without returning its counter contribution). -/
structure ExecutionContextData where
  tx : CancellationNotification
  prevent_cancellation : Nat
  liveGuards : Nat
  notifSends : Nat
  permHolds : Nat
deriving DecidableEq, Repr

/-- source: `ExecutionContextData::can_exit`. -/
def ExecutionContextData.can_exit (e : ExecutionContextData) : Bool :=
  e.prevent_cancellation == 0

/-- source: `ExecutionContextData::enter_critical_section`. -/
def ExecutionContextData.enter_critical_section
    (e : ExecutionContextData) : ExecutionContextData :=
  { e with prevent_cancellation := e.prevent_cancellation + 1,
           liveGuards := e.liveGuards + 1 }

/-- source: `ExecutionContextData::enter_structured_cancellation` (the returned
`CancellationObserver` is a clone of the shared receiver and does not affect
the counter). -/
def ExecutionContextData.enter_structured_cancellation
    (e : ExecutionContextData) : ExecutionContextData :=
  { e with prevent_cancellation := e.prevent_cancellation + 1,
           liveGuards := e.liveGuards + 1 }

/-- source: `ExecutionContextData::notify_cancelled`.  Sends `()` exactly when
the notification is still `Pending`; a no-op on `Notified` and `Disabled`. -/
def ExecutionContextData.notify_cancelled
    (e : ExecutionContextData) : ExecutionContextData :=
  match e.tx with
  | CancellationNotification.Pending =>
      { e with tx := CancellationNotification.Notified,
               notifSends := e.notifSends + 1 }
  | CancellationNotification.Notified => e
  | CancellationNotification.Disabled => e

/-- source: `ExecutionContextData::exit_prevent_cancellation` (the returned
bool, whether the counter reached zero, is recoverable from the result). -/
def ExecutionContextData.exit_prevent_cancellation
    (e : ExecutionContextData) : ExecutionContextData :=
  { e with prevent_cancellation := e.prevent_cancellation - 1 }

/-- source: `ExecutionContextData::try_to_disable_cancellation`. -/
def ExecutionContextData.try_to_disable_cancellation
    (e : ExecutionContextData) : Bool × ExecutionContextData :=
  match e.tx with
  | CancellationNotification.Pending =>
      (true, { e with tx := CancellationNotification.Disabled })
  | CancellationNotification.Notified => (false, e)
  | CancellationNotification.Disabled => (true, e)

/-- source: `CriticalSectionGuard::exit_prevent_cancellation` (consumes the
guard and decrements the counter). -/
def guardExit (e : ExecutionContextData) : ExecutionContextData :=
  { e.exit_prevent_cancellation with liveGuards := e.liveGuards - 1 }

/-- source: `CriticalSectionGuard::try_to_disable_cancellation`.  On success
the guard is consumed without decrementing `prevent_cancellation` (recorded by
incrementing the ghost `permHolds`); on failure the guard's counter
contribution is released. -/
def guardTryToDisable (e : ExecutionContextData) : Bool × ExecutionContextData :=
  match e.try_to_disable_cancellation with
  | (true, e1) =>
      (true, { e1 with liveGuards := e1.liveGuards - 1,
                       permHolds := e1.permHolds + 1 })
  | (false, e1) =>
      (false, { e1.exit_prevent_cancellation with liveGuards := e1.liveGuards - 1 })

/-- The whole system: shared state, execution context, future flags, and ghost
observables. -/
structure Sys where
  cancelled : Bool
  state : State
  started : Bool
  execution : ExecutionContextData
  replySends : List TerminationStatus
  senderLoc : SenderLoc
  handleAlive : Bool
  taskAlive : Bool
  wakes : Nat
  innerPolls : Nat
deriving DecidableEq, Repr

/-- source: `CancellationHandle::cancel`.  `none` models calls that cannot
happen (the handle was already consumed or dropped) and the `unreachable!`
branch on `State::Cancelled`. -/
def cancel (s : Sys) : Option Sys :=
  if s.handleAlive = true then
    match s.state with
    | State.Cancelled => none
    | State.Exited =>
        some { s with cancelled := true, handleAlive := false,
                      replySends := s.replySends ++ [TerminationStatus.Finished],
                      senderLoc := SenderLoc.used }
    | State.Pending =>
        some { s with cancelled := true, handleAlive := false,
                      state := State.Cancelled, senderLoc := SenderLoc.state }
    | State.Polled =>
        some { s with cancelled := true, handleAlive := false,
                      state := State.Cancelled, senderLoc := SenderLoc.state,
                      wakes := s.wakes + 1 }
  else none

/-- One interaction of the user computation with the execution context during
an inner poll.  `cancelOp` is the computation invoking
`CancellationHandle::cancel` on a handle it holds, so that cancellation racing
with the poll itself is covered. -/
inductive CtxOp where
  | enterCS
  | enterSC
  | exitGuard
  | dropGuard
  | tryDisable
  | cancelOp
deriving DecidableEq, Repr

/-- Effect of one `CtxOp`; `none` when the interaction is impossible (no live
guard to consume, or `cancel` on a consumed handle). -/
def applyOp (s : Sys) : CtxOp → Option Sys
  | CtxOp.enterCS =>
      some { s with execution := s.execution.enter_critical_section }
  | CtxOp.enterSC =>
      some { s with execution := s.execution.enter_structured_cancellation }
  | CtxOp.exitGuard =>
      if s.execution.liveGuards = 0 then none
      else some { s with execution := guardExit s.execution }
  | CtxOp.dropGuard =>
      if s.execution.liveGuards = 0 then none
      else some { s with execution := guardExit s.execution }
  | CtxOp.tryDisable =>
      if s.execution.liveGuards = 0 then none
      else some { s with execution := (guardTryToDisable s.execution).2 }
  | CtxOp.cancelOp => cancel s

/-- Runs the user computation's interactions of one inner poll in order. -/
def runOps (s : Sys) : List CtxOp → Option Sys
  | [] => some s
  | op :: ops =>
      match applyOp s op with
      | none => none
      | some s1 => runOps s1 ops

/-- Rust's `Poll`. -/
inductive Poll (α : Type) where
  | pending
  | ready (a : α)
deriving DecidableEq, Repr

/-- source: `ExplicitlyCancellableFutureProj::poll_inner`.  `ops` are the
context interactions the inner future performs if it is polled, `innerRes` its
own poll result (`none` = pending). -/
def pollInner (T : Type) (s : Sys) (ops : List CtxOp) (innerRes : Option T) :
    Option (Sys × Poll (Option T)) :=
  if s.cancelled && s.execution.can_exit then
    some (s, Poll.ready none)
  else
    match runOps
        (if s.cancelled then
          { s with execution := s.execution.notify_cancelled,
                   innerPolls := s.innerPolls + 1 }
         else { s with innerPolls := s.innerPolls + 1 }) ops with
    | none => none
    | some s2 =>
        if s.cancelled && s2.execution.can_exit then some (s2, Poll.ready none)
        else
          match innerRes with
          | some v => some (s2, Poll.ready (some v))
          | none => some (s2, Poll.pending)

/-- source: the first-poll block of
`<ExplicitlyCancellableFuture as Future>::poll`: if the `started` latch is
unset, move `Pending` to `Polled` (storing the waker) and set the latch. -/
def startAdjust (s : Sys) : Sys :=
  if s.started then s
  else
    { s with started := true,
             state := (match s.state with
                       | State.Pending => State.Polled
                       | o => o) }

/-- source: the termination handoff of
`<ExplicitlyCancellableFuture as Future>::poll`: on a ready result the state
is swapped to `Exited`; if it was `Cancelled { tx }` the reply is sent
(`Cancelled` and a forced `Ready(None)` when the computation can exit,
`Finished` otherwise). -/
def pollExit (T : Type) (p : Sys × Poll (Option T)) : Sys × Poll (Option T) :=
  match p with
  | (s1, Poll.pending) => (s1, Poll.pending)
  | (s1, Poll.ready x) =>
      if s1.state = State.Cancelled then
        if s1.execution.can_exit then
          ({ s1 with state := State.Exited,
                     replySends :=
                       s1.replySends ++ [TerminationStatus.Cancelled],
                     senderLoc := SenderLoc.used },
           Poll.ready none)
        else
          ({ s1 with state := State.Exited,
                     replySends :=
                       s1.replySends ++ [TerminationStatus.Finished],
                     senderLoc := SenderLoc.used },
           Poll.ready x)
      else ({ s1 with state := State.Exited }, Poll.ready x)

/-- source: `<ExplicitlyCancellableFuture as Future>::poll`: the first-poll
`started` latch and `Pending -> Polled` transition, then `poll_inner`, then
the termination handoff swapping the state to `Exited` on any ready result. -/
def pollFut (T : Type) (s : Sys) (ops : List CtxOp) (innerRes : Option T) :
    Option (Sys × Poll (Option T)) :=
  Option.map (pollExit T) (pollInner T (startAdjust s) ops innerRes)

/-- source: `<TerminationObserver as Future>::poll` over the shared receiver;
`none` models `Poll::Pending`. -/
def observerPoll (s : Sys) : Option TerminationStatus :=
  match s.replySends.head? with
  | some v => some v
  | none =>
      if s.senderLoc = SenderLoc.dropped then some TerminationStatus.ExecutorShutdown
      else none

/-- External events of a trace: a poll of the task (with the inner future's
behaviour at that poll), a `cancel` call, dropping the handle without
cancelling, and dropping the task. -/
inductive Event (T : Type) where
  | poll (ops : List CtxOp) (innerRes : Option T)
  | cancelEvt
  | dropHandle
  | dropTask

/-- One trace step.  Dropping the task drops the inner future, hence every
live guard (releasing their counter contributions); if the state held the
reply sender it is dropped with the shared state, whose only other owner, the
handle, was consumed when that sender was stored. -/
def step (T : Type) (s : Sys) : Event T → Option Sys
  | Event.poll ops r =>
      if s.taskAlive = true then Option.map Prod.fst (pollFut T s ops r) else none
  | Event.cancelEvt => cancel s
  | Event.dropHandle =>
      if s.handleAlive = true then
        some { s with handleAlive := false, senderLoc := SenderLoc.dropped }
      else none
  | Event.dropTask =>
      if s.taskAlive = true then
        some { s with taskAlive := false,
                      senderLoc :=
                        (if s.state = State.Cancelled then SenderLoc.dropped
                         else s.senderLoc),
                      execution :=
                        { s.execution with
                          prevent_cancellation :=
                            s.execution.prevent_cancellation -
                              s.execution.liveGuards,
                          liveGuards := 0 } }
      else none

/-- Runs a list of events. -/
def run (T : Type) (s : Sys) : List (Event T) → Option Sys
  | [] => some s
  | e :: tr =>
      match step T s e with
      | none => none
      | some s1 => run T s1 tr

/-- source: `ExecutionContext::new`. -/
def initExecution : ExecutionContextData :=
  { tx := CancellationNotification.Pending, prevent_cancellation := 0,
    liveGuards := 0, notifSends := 0, permHolds := 0 }

/-- The state just after `make_cancellable_future`. -/
def initSys : Sys :=
  { cancelled := false, state := State.Pending, started := false,
    execution := initExecution, replySends := [], senderLoc := SenderLoc.handle,
    handleAlive := true, taskAlive := true, wakes := 0, innerPolls := 0 }

/-- Well-formedness of the execution context: the counter is exactly the live
guards plus the permanently retained holds, a successful disable implies the
notification is parked, and the notification fired iff it is `Notified`. -/
structure ExecInv (e : ExecutionContextData) : Prop where
  counterEq : e.prevent_cancellation = e.liveGuards + e.permHolds
  permDisabled : 1 ≤ e.permHolds → e.tx = CancellationNotification.Disabled
  sendsEq : e.notifSends = (if e.tx = CancellationNotification.Notified then 1 else 0)

/-- System invariant: execution-context well-formedness, sender accounting for
the reply channel (a live handle still owns an unused sender; at most one
value, never `ExecutorShutdown`, is ever sent; the sender stored in
`State::Cancelled` has not been used), and the `cancelled` flag is set before
any transition into `State::Cancelled`. -/
structure SysInv (s : Sys) : Prop where
  execInv : ExecInv s.execution
  handleOwns : s.handleAlive = true →
    s.senderLoc = SenderLoc.handle ∧ s.cancelled = false
  unusedEmpty : s.senderLoc ≠ SenderLoc.used → s.replySends = []
  usedOne : s.senderLoc = SenderLoc.used →
    ∃ v, s.replySends = [v] ∧ v ≠ TerminationStatus.ExecutorShutdown
  cancelledState : s.state = State.Cancelled →
    s.cancelled = true ∧ s.senderLoc ≠ SenderLoc.used

/-- Sample state: the system right after `cancel()` was called on a
never-polled task. -/
def cancelledSample : Sys :=
  { cancelled := true, state := State.Cancelled, started := false,
    execution := initExecution, replySends := [], senderLoc := SenderLoc.state,
    handleAlive := false, taskAlive := true, wakes := 0, innerPolls := 0 }

/-- Sample state: a polled task inside a critical section (one live guard)
that has just been cancelled. -/
def criticalSample : Sys :=
  { cancelled := true, state := State.Polled, started := true,
    execution := { tx := CancellationNotification.Pending,
                   prevent_cancellation := 1, liveGuards := 1,
                   notifSends := 0, permHolds := 0 },
    replySends := [], senderLoc := SenderLoc.state, handleAlive := false,
    taskAlive := true, wakes := 1, innerPolls := 1 }

/-- Sample state: the task right after completing its first poll normally. -/
def finishedSample : Sys :=
  { initSys with started := true, state := State.Exited, innerPolls := 1 }

/-- Sample state: `finishedSample` after a late `cancel()`. -/
def finishedCancelledSample : Sys :=
  { finishedSample with
    cancelled := true,
    handleAlive := false,
    replySends := [TerminationStatus.Finished],
    senderLoc := SenderLoc.used }

/-- Sample state: reached by one poll whose inner future enters a critical
section and successfully disables cancellation. -/
def disabledSample : Sys :=
  { cancelled := false, state := State.Polled, started := true,
    execution := { tx := CancellationNotification.Disabled,
                   prevent_cancellation := 1, liveGuards := 0,
                   notifSends := 0, permHolds := 1 },
    replySends := [], senderLoc := SenderLoc.handle, handleAlive := true,
    taskAlive := true, wakes := 0, innerPolls := 1 }

/-- Sample state: `disabledSample` after one completing poll. -/
def disabledPolledSample : Sys :=
  { disabledSample with state := State.Exited, innerPolls := 2 }

/-- Sample state: the initial state after the handle is dropped uncancelled. -/
def droppedSample : Sys :=
  { initSys with handleAlive := false, senderLoc := SenderLoc.dropped }

/-- Sample state: `droppedSample` after one completing poll. -/
def droppedExitedSample : Sys :=
  { droppedSample with started := true, state := State.Exited, innerPolls := 1 }

/-- A task whose handle was dropped without `cancel()` and whose reply channel
is therefore forever closed without a value: the `cancelled` flag is still
unset, the sender is dropped before any send, and the lifecycle never entered
`Cancelled`. -/
def DroppedIdle (t : Sys) : Prop :=
  t.cancelled = false ∧ t.handleAlive = false ∧
  t.senderLoc = SenderLoc.dropped ∧ t.replySends = [] ∧
  t.state ≠ State.Cancelled

/-- Facts about one `cancel` call: it marks the flag, consumes the handle,
leaves the execution context and task untouched, appends at most a `Finished`
to the reply channel, and preserves the system invariant. -/
theorem cancel_facts {s s1 : Sys} (h : cancel s = some s1) :
    s1.execution = s.execution ∧ s1.cancelled = true ∧ s1.handleAlive = false ∧
    s1.taskAlive = s.taskAlive ∧ s1.started = s.started ∧
    (∃ ex, s1.replySends = s.replySends ++ ex ∧
      TerminationStatus.Cancelled ∉ ex) ∧
    s.handleAlive = true ∧ (SysInv s → SysInv s1) := by
  unfold cancel at h
  split_ifs at h with hA
  · cases hst : s.state <;> rw [hst] at h <;> simp only [Option.some.injEq] at h
    · subst h
      refine ⟨rfl, rfl, rfl, rfl, rfl, ⟨[], by simp⟩, hA, ?_⟩
      intro hs
      obtain ⟨h2, h3⟩ := hs.handleOwns hA
      exact ⟨hs.execInv, by simp, fun _ => hs.unusedEmpty (by simp [h2]),
        by simp, by simp⟩
    · subst h
      refine ⟨rfl, rfl, rfl, rfl, rfl, ⟨[], by simp⟩, hA, ?_⟩
      intro hs
      obtain ⟨h2, h3⟩ := hs.handleOwns hA
      exact ⟨hs.execInv, by simp, fun _ => hs.unusedEmpty (by simp [h2]),
        by simp, by simp⟩
    · exact absurd h (by simp)
    · subst h
      refine ⟨rfl, rfl, rfl, rfl, rfl, ⟨[TerminationStatus.Finished], rfl, by simp⟩,
        hA, ?_⟩
      intro hs
      obtain ⟨h2, h3⟩ := hs.handleOwns hA
      refine ⟨hs.execInv, by simp, by simp, ?_, by simp [hst]⟩
      intro _
      exact ⟨TerminationStatus.Finished, by simp [hs.unusedEmpty (by simp [h2])],
        by simp⟩

/-- `notify_cancelled` preserves execution-context well-formedness. -/
theorem execInv_notify {e : ExecutionContextData} (h : ExecInv e) :
    ExecInv e.notify_cancelled := by
  obtain ⟨h1, h2, h3⟩ := h
  cases htx : e.tx <;>
    simp only [ExecutionContextData.notify_cancelled, htx] at h2 h3 ⊢ <;>
    refine ⟨by simpa using h1, ?_, ?_⟩ <;> simp_all

/-- Unfolding of `guardTryToDisable` by notification sub-state. -/
theorem guardTryToDisable_spec (e : ExecutionContextData) :
    guardTryToDisable e =
      match e.tx with
      | CancellationNotification.Pending =>
          (true, { e with tx := CancellationNotification.Disabled,
                          liveGuards := e.liveGuards - 1,
                          permHolds := e.permHolds + 1 })
      | CancellationNotification.Notified =>
          (false, { e with prevent_cancellation := e.prevent_cancellation - 1,
                           liveGuards := e.liveGuards - 1 })
      | CancellationNotification.Disabled =>
          (true, { e with liveGuards := e.liveGuards - 1,
                          permHolds := e.permHolds + 1 }) := by
  cases htx : e.tx <;>
    simp [guardTryToDisable, ExecutionContextData.try_to_disable_cancellation,
      ExecutionContextData.exit_prevent_cancellation, htx]

/-- Facts about one context interaction: it preserves the system invariant,
never decreases `permHolds`, keeps the notification parked once `Disabled`,
keeps the `cancelled` flag set, appends at most a `Finished` to the reply
channel, does not touch the task, and is inert on the non-execution fields
once the handle is gone. -/
theorem applyOp_facts {s s1 : Sys} {op : CtxOp} (h : applyOp s op = some s1) :
    (SysInv s → SysInv s1) ∧
    s.execution.permHolds ≤ s1.execution.permHolds ∧
    (s.execution.tx = CancellationNotification.Disabled →
      s1.execution.tx = CancellationNotification.Disabled) ∧
    (s.cancelled = true → s1.cancelled = true) ∧
    (∃ ex, s1.replySends = s.replySends ++ ex ∧
      TerminationStatus.Cancelled ∉ ex) ∧
    s1.taskAlive = s.taskAlive ∧
    (s.handleAlive = false →
      s1.handleAlive = false ∧ s1.cancelled = s.cancelled ∧ s1.state = s.state ∧
      s1.replySends = s.replySends ∧ s1.senderLoc = s.senderLoc ∧
      s1.started = s.started) := by
  cases op <;> simp only [applyOp] at h
  · obtain rfl := (Option.some.injEq _ _).mp h
    refine ⟨?_, by simp [ExecutionContextData.enter_critical_section],
      by simp [ExecutionContextData.enter_critical_section],
      by simp, ⟨[], by simp⟩, rfl, by simp⟩
    intro hs
    obtain ⟨h1, h2, h3⟩ := hs.execInv
    refine ⟨⟨?_, ?_, ?_⟩,
      hs.handleOwns, hs.unusedEmpty, hs.usedOne, hs.cancelledState⟩
    · simp only [ExecutionContextData.enter_critical_section]; omega
    · simpa [ExecutionContextData.enter_critical_section] using h2
    · simpa [ExecutionContextData.enter_critical_section] using h3
  · obtain rfl := (Option.some.injEq _ _).mp h
    refine ⟨?_, by simp [ExecutionContextData.enter_structured_cancellation],
      by simp [ExecutionContextData.enter_structured_cancellation],
      by simp, ⟨[], by simp⟩, rfl, by simp⟩
    intro hs
    obtain ⟨h1, h2, h3⟩ := hs.execInv
    refine ⟨⟨?_, ?_, ?_⟩,
      hs.handleOwns, hs.unusedEmpty, hs.usedOne, hs.cancelledState⟩
    · simp only [ExecutionContextData.enter_structured_cancellation]; omega
    · simpa [ExecutionContextData.enter_structured_cancellation] using h2
    · simpa [ExecutionContextData.enter_structured_cancellation] using h3
  · split_ifs at h with hg
    obtain rfl := (Option.some.injEq _ _).mp h
    refine ⟨?_, by simp [guardExit, ExecutionContextData.exit_prevent_cancellation],
      by simp [guardExit, ExecutionContextData.exit_prevent_cancellation],
      by simp, ⟨[], by simp⟩, rfl, by simp⟩
    intro hs
    obtain ⟨h1, h2, h3⟩ := hs.execInv
    refine ⟨⟨?_, ?_, ?_⟩,
      hs.handleOwns, hs.unusedEmpty, hs.usedOne, hs.cancelledState⟩
    · simp only [guardExit, ExecutionContextData.exit_prevent_cancellation]; omega
    · simpa [guardExit, ExecutionContextData.exit_prevent_cancellation] using h2
    · simpa [guardExit, ExecutionContextData.exit_prevent_cancellation] using h3
  · split_ifs at h with hg
    obtain rfl := (Option.some.injEq _ _).mp h
    refine ⟨?_, by simp [guardExit, ExecutionContextData.exit_prevent_cancellation],
      by simp [guardExit, ExecutionContextData.exit_prevent_cancellation],
      by simp, ⟨[], by simp⟩, rfl, by simp⟩
    intro hs
    obtain ⟨h1, h2, h3⟩ := hs.execInv
    refine ⟨⟨?_, ?_, ?_⟩,
      hs.handleOwns, hs.unusedEmpty, hs.usedOne, hs.cancelledState⟩
    · simp only [guardExit, ExecutionContextData.exit_prevent_cancellation]; omega
    · simpa [guardExit, ExecutionContextData.exit_prevent_cancellation] using h2
    · simpa [guardExit, ExecutionContextData.exit_prevent_cancellation] using h3
  · split_ifs at h with hg
    obtain rfl := (Option.some.injEq _ _).mp h
    rw [guardTryToDisable_spec]
    cases htx : s.execution.tx
    · refine ⟨?_, by simp, by simp [htx], by simp, ⟨[], by simp⟩, rfl, by simp⟩
      intro hs
      obtain ⟨h1, h2, h3⟩ := hs.execInv
      refine ⟨⟨?_, by simp, ?_⟩,
        hs.handleOwns, hs.unusedEmpty, hs.usedOne, hs.cancelledState⟩
      · simp only []; omega
      · simpa [htx] using h3
    · refine ⟨?_, by simp, by simp [htx], by simp, ⟨[], by simp⟩, rfl, by simp⟩
      intro hs
      obtain ⟨h1, h2, h3⟩ := hs.execInv
      refine ⟨⟨?_, ?_, ?_⟩,
        hs.handleOwns, hs.unusedEmpty, hs.usedOne, hs.cancelledState⟩
      · simp only []; omega
      · intro hp
        exact absurd (h2 (by simpa using hp)) (by simp [htx])
      · simpa [htx] using h3
    · refine ⟨?_, by simp, by simp [htx], by simp, ⟨[], by simp⟩, rfl, by simp⟩
      intro hs
      obtain ⟨h1, h2, h3⟩ := hs.execInv
      refine ⟨⟨?_, by simp, ?_⟩,
        hs.handleOwns, hs.unusedEmpty, hs.usedOne, hs.cancelledState⟩
      · simp only []; omega
      · simpa [htx] using h3
  · obtain ⟨he, hc, hh, ht, hst, hex, hA, hinv⟩ := cancel_facts h
    refine ⟨hinv, by simp [he], by simp [he], fun _ => hc, hex, ht, ?_⟩
    intro hA2
    exact absurd hA (by simp [hA2])

/-- `applyOp_facts` lifted to a whole list of interactions. -/
theorem runOps_facts {ops : List CtxOp} {s s1 : Sys} (h : runOps s ops = some s1) :
    (SysInv s → SysInv s1) ∧
    s.execution.permHolds ≤ s1.execution.permHolds ∧
    (s.execution.tx = CancellationNotification.Disabled →
      s1.execution.tx = CancellationNotification.Disabled) ∧
    (s.cancelled = true → s1.cancelled = true) ∧
    (∃ ex, s1.replySends = s.replySends ++ ex ∧
      TerminationStatus.Cancelled ∉ ex) ∧
    s1.taskAlive = s.taskAlive ∧
    (s.handleAlive = false →
      s1.handleAlive = false ∧ s1.cancelled = s.cancelled ∧ s1.state = s.state ∧
      s1.replySends = s.replySends ∧ s1.senderLoc = s.senderLoc ∧
      s1.started = s.started) := by
  induction ops generalizing s with
  | nil =>
    obtain rfl := (Option.some.injEq _ _).mp h
    exact ⟨id, le_refl _, fun a => a, fun a => a, ⟨[], by simp⟩, rfl,
      fun a => ⟨a, rfl, rfl, rfl, rfl, rfl⟩⟩
  | cons op ops ih =>
    simp only [runOps] at h
    cases hop : applyOp s op with
    | none => rw [hop] at h; cases h
    | some sm =>
      rw [hop] at h
      obtain ⟨g1, g2, g3, g4, ⟨ex1, gex1, gni1⟩, g6, g7⟩ := applyOp_facts hop
      obtain ⟨f1, f2, f3, f4, ⟨ex2, fex2, fni2⟩, f6, f7⟩ := ih h
      refine ⟨fun hs => f1 (g1 hs), le_trans g2 f2, fun a => f3 (g3 a),
        fun a => f4 (g4 a), ⟨ex1 ++ ex2, ?_, ?_⟩, f6.trans g6, ?_⟩
      · rw [fex2, gex1, List.append_assoc]
      · intro hm
        rcases List.mem_append.mp hm with hm | hm
        · exact gni1 hm
        · exact fni2 hm
      · intro hA
        obtain ⟨ga, gb, gc, gd, ge, gf⟩ := g7 hA
        obtain ⟨fa, fb, fc, fd, fe, ff⟩ := f7 ga
        exact ⟨fa, fb.trans gb, fc.trans gc, fd.trans gd, fe.trans ge, ff.trans gf⟩

/-- `notify_cancelled` only touches the notification fields. -/
theorem notify_frame (e : ExecutionContextData) :
    e.notify_cancelled.permHolds = e.permHolds ∧
    e.notify_cancelled.prevent_cancellation = e.prevent_cancellation ∧
    e.notify_cancelled.liveGuards = e.liveGuards := by
  cases htx : e.tx <;> simp [ExecutionContextData.notify_cancelled, htx]

/-- The fact bundle of `runOps_facts` carried through `poll_inner`. -/
theorem pollInner_facts {T : Type} {s s1 : Sys} {ops : List CtxOp} {r : Option T}
    {res : Poll (Option T)} (h : pollInner T s ops r = some (s1, res)) :
    (SysInv s → SysInv s1) ∧
    s.execution.permHolds ≤ s1.execution.permHolds ∧
    (s.execution.tx = CancellationNotification.Disabled →
      s1.execution.tx = CancellationNotification.Disabled) ∧
    (s.cancelled = true → s1.cancelled = true) ∧
    (∃ ex, s1.replySends = s.replySends ++ ex ∧
      TerminationStatus.Cancelled ∉ ex) ∧
    s1.taskAlive = s.taskAlive ∧
    (s.handleAlive = false →
      s1.handleAlive = false ∧ s1.cancelled = s.cancelled ∧ s1.state = s.state ∧
      s1.replySends = s.replySends ∧ s1.senderLoc = s.senderLoc ∧
      s1.started = s.started) := by
  unfold pollInner at h
  by_cases hcc : (s.cancelled && s.execution.can_exit) = true
  · rw [if_pos hcc] at h
    simp only [Option.some.injEq, Prod.mk.injEq] at h
    obtain ⟨rfl, rfl⟩ := h
    exact ⟨id, le_refl _, fun a => a, fun a => a, ⟨[], by simp⟩, rfl,
      fun a => ⟨a, rfl, rfl, rfl, rfl, rfl⟩⟩
  · rw [if_neg hcc] at h
    by_cases hc : s.cancelled = true
    · rw [if_pos hc] at h
      cases hro : runOps
          { s with execution := s.execution.notify_cancelled,
                   innerPolls := s.innerPolls + 1 } ops with
      | none => rw [hro] at h; cases h
      | some s2 =>
        rw [hro] at h
        have h9 : (if (s.cancelled && s2.execution.can_exit) = true then
            some (s2, Poll.ready none)
          else
            match r with
            | some v => some (s2, Poll.ready (some v))
            | none => some (s2, Poll.pending)) = some (s1, res) := h
        have hs1 : s1 = s2 := by
          split_ifs at h9
          · simp only [Option.some.injEq, Prod.mk.injEq] at h9
            exact h9.1.symm
          · cases r <;> simp only [Option.some.injEq, Prod.mk.injEq] at h9 <;>
              exact h9.1.symm
        subst hs1
        obtain ⟨f1, f2, f3, f4, f5, f6, f7⟩ := runOps_facts hro
        refine ⟨?_, le_trans (le_of_eq (notify_frame s.execution).1.symm) f2, ?_,
          fun _ => f4 hc, f5, f6, ?_⟩
        · intro hs
          exact f1 ⟨execInv_notify hs.execInv, hs.handleOwns, hs.unusedEmpty,
            hs.usedOne, hs.cancelledState⟩
        · intro hd
          refine f3 ?_
          simp only [ExecutionContextData.notify_cancelled, hd]
        · intro hA
          obtain ⟨fa, fb, fc, fd, fe, ff⟩ := f7 hA
          exact ⟨fa, fb, fc, fd, fe, ff⟩
    · rw [if_neg hc] at h
      cases hro : runOps { s with innerPolls := s.innerPolls + 1 } ops with
      | none => rw [hro] at h; cases h
      | some s2 =>
        rw [hro] at h
        have h9 : (if (s.cancelled && s2.execution.can_exit) = true then
            some (s2, Poll.ready none)
          else
            match r with
            | some v => some (s2, Poll.ready (some v))
            | none => some (s2, Poll.pending)) = some (s1, res) := h
        have hs1 : s1 = s2 := by
          split_ifs at h9
          · simp only [Option.some.injEq, Prod.mk.injEq] at h9
            exact h9.1.symm
          · cases r <;> simp only [Option.some.injEq, Prod.mk.injEq] at h9 <;>
              exact h9.1.symm
        subst hs1
        obtain ⟨f1, f2, f3, f4, f5, f6, f7⟩ := runOps_facts hro
        refine ⟨?_, f2, f3, fun hcx => absurd hcx hc, f5, f6, ?_⟩
        · intro hs
          exact f1 ⟨hs.execInv, hs.handleOwns, hs.unusedEmpty,
            hs.usedOne, hs.cancelledState⟩
        · intro hA
          obtain ⟨fa, fb, fc, fd, fe, ff⟩ := f7 hA
          exact ⟨fa, fb, fc, fd, fe, ff⟩

/-- The first-poll adjustment only flips the `started` latch and promotes
`Pending` to `Polled`. -/
theorem startAdjust_facts (s : Sys) :
    (SysInv s → SysInv (startAdjust s)) ∧
    (startAdjust s).execution = s.execution ∧
    (startAdjust s).cancelled = s.cancelled ∧
    (startAdjust s).taskAlive = s.taskAlive ∧
    (startAdjust s).handleAlive = s.handleAlive ∧
    (startAdjust s).replySends = s.replySends ∧
    (startAdjust s).senderLoc = s.senderLoc ∧
    ((startAdjust s).state = State.Cancelled ↔ s.state = State.Cancelled) := by
  unfold startAdjust
  split_ifs with hst
  · exact ⟨id, rfl, rfl, rfl, rfl, rfl, rfl, Iff.rfl⟩
  · refine ⟨?_, rfl, rfl, rfl, rfl, rfl, rfl, ?_⟩
    · intro hs
      refine ⟨hs.execInv, hs.handleOwns, hs.unusedEmpty, hs.usedOne, ?_⟩
      intro hx
      refine hs.cancelledState ?_
      cases hy : s.state <;> rw [hy] at hx <;> first | exact hx | cases hx
    · cases hy : s.state <;> simp [hy]

/-- The termination handoff preserves the system invariant and does not touch
the execution context, the `cancelled` flag, the task or the handle. -/
theorem pollExit_facts {T : Type} (p : Sys × Poll (Option T)) :
    (SysInv p.1 → SysInv (pollExit T p).1) ∧
    (pollExit T p).1.execution = p.1.execution ∧
    (pollExit T p).1.cancelled = p.1.cancelled ∧
    (pollExit T p).1.taskAlive = p.1.taskAlive ∧
    (pollExit T p).1.handleAlive = p.1.handleAlive := by
  obtain ⟨sm, res⟩ := p
  cases res with
  | pending => exact ⟨id, rfl, rfl, rfl, rfl⟩
  | ready x =>
    simp only [pollExit]
    split_ifs with hsm hce <;> refine ⟨?_, rfl, rfl, rfl, rfl⟩
    · intro hs
      obtain ⟨hcanc, hnu⟩ := hs.cancelledState hsm
      have hempty : sm.replySends = [] := hs.unusedEmpty hnu
      refine ⟨hs.execInv, ?_, by simp, ?_, by simp⟩
      · intro hA
        exact absurd (hs.handleOwns hA).2 (by simp [hcanc])
      · intro _
        exact ⟨_, by rw [hempty]; rfl, by simp⟩
    · intro hs
      obtain ⟨hcanc, hnu⟩ := hs.cancelledState hsm
      have hempty : sm.replySends = [] := hs.unusedEmpty hnu
      refine ⟨hs.execInv, ?_, by simp, ?_, by simp⟩
      · intro hA
        exact absurd (hs.handleOwns hA).2 (by simp [hcanc])
      · intro _
        exact ⟨_, by rw [hempty]; rfl, by simp⟩
    · intro hs
      exact ⟨hs.execInv, hs.handleOwns, hs.unusedEmpty, hs.usedOne, by simp⟩

/-- A ready handoff always leaves the lifecycle state `Exited`. -/
theorem pollExit_ready_exited {T : Type} {p : Sys × Poll (Option T)} {s1 : Sys}
    {x : Option T} (h : pollExit T p = (s1, Poll.ready x)) :
    s1.state = State.Exited := by
  obtain ⟨sm, res⟩ := p
  cases res with
  | pending => cases h
  | ready y =>
    simp only [pollExit] at h
    split_ifs at h <;> simp only [Prod.mk.injEq] at h <;> rw [← h.1]

/-- The fact bundle carried through a whole `poll` of the task. -/
theorem pollFut_facts {T : Type} {s s1 : Sys} {ops : List CtxOp} {r : Option T}
    {res : Poll (Option T)} (h : pollFut T s ops r = some (s1, res)) :
    (SysInv s → SysInv s1) ∧
    s.execution.permHolds ≤ s1.execution.permHolds ∧
    (s.execution.tx = CancellationNotification.Disabled →
      s1.execution.tx = CancellationNotification.Disabled) ∧
    (s.cancelled = true → s1.cancelled = true) ∧
    s1.taskAlive = s.taskAlive := by
  unfold pollFut at h
  rw [Option.map_eq_some'] at h
  obtain ⟨⟨sm, rm⟩, hpi, hpe⟩ := h
  obtain ⟨a1, a2, a3, a4, a5, a6, a7, a8⟩ := startAdjust_facts s
  obtain ⟨f1, f2, f3, f4, f5, f6, f7⟩ := pollInner_facts hpi
  obtain ⟨g1, g2, g3, g4, g5⟩ := pollExit_facts (T := T) (sm, rm)
  have hs1 : (pollExit T (sm, rm)).1 = s1 := by rw [hpe]
  rw [hs1] at g1 g2 g3 g4 g5
  refine ⟨fun hs => g1 (f1 (a1 hs)), ?_, ?_, ?_, ?_⟩
  · calc s.execution.permHolds = (startAdjust s).execution.permHolds := by rw [a2]
      _ ≤ sm.execution.permHolds := f2
      _ = s1.execution.permHolds := by rw [g2]
  · intro hd
    have := f3 (by rw [a2]; exact hd)
    rw [g2]; exact this
  · intro hc
    have := f4 (by rw [a3]; exact hc)
    rw [g3]; exact this
  · rw [g4, f6, a4]

/-- The fact bundle carried through one trace step. -/
theorem step_facts {T : Type} {s s1 : Sys} {e : Event T} (h : step T s e = some s1) :
    (SysInv s → SysInv s1) ∧
    s.execution.permHolds ≤ s1.execution.permHolds ∧
    (s.execution.tx = CancellationNotification.Disabled →
      s1.execution.tx = CancellationNotification.Disabled) ∧
    (s.cancelled = true → s1.cancelled = true) := by
  cases e with
  | poll ops r =>
    simp only [step] at h
    split_ifs at h with hT
    rw [Option.map_eq_some'] at h
    obtain ⟨⟨s2, res⟩, hp, hfst⟩ := h
    obtain ⟨f1, f2, f3, f4, f5⟩ := pollFut_facts hp
    rw [show s2 = s1 from hfst] at f1 f2 f3 f4
    exact ⟨f1, f2, f3, f4⟩
  | cancelEvt =>
    obtain ⟨he, hc, _, _, _, _, _, hinv⟩ := cancel_facts h
    exact ⟨hinv, le_of_eq (by rw [he]), fun hd => by rw [he]; exact hd,
      fun _ => hc⟩
  | dropHandle =>
    simp only [step] at h
    split_ifs at h with hA
    obtain rfl := (Option.some.injEq _ _).mp h
    refine ⟨?_, le_refl _, fun a => a, fun a => a⟩
    intro hs
    obtain ⟨hsl, hcf⟩ := hs.handleOwns hA
    refine ⟨hs.execInv, by simp, fun _ => hs.unusedEmpty (by simp [hsl]),
      by simp, ?_⟩
    intro hcs
    exact absurd (hs.cancelledState hcs).1 (by simp [hcf])
  | dropTask =>
    simp only [step] at h
    split_ifs at h with hT hsc
    · obtain rfl := (Option.some.injEq _ _).mp h
      refine ⟨?_, by simp, by simp, by simp⟩
      intro hs
      obtain ⟨h1, h2, h3⟩ := hs.execInv
      refine ⟨⟨by simp; omega, by simpa using h2, by simpa using h3⟩, ?_,
        fun _ => hs.unusedEmpty (hs.cancelledState hsc).2, by simp, ?_⟩
      · intro hA
        exact absurd (hs.cancelledState hsc).1 (by simp [(hs.handleOwns hA).2])
      · intro hcs
        exact ⟨(hs.cancelledState hsc).1, by simp⟩
    · obtain rfl := (Option.some.injEq _ _).mp h
      refine ⟨?_, by simp, by simp, by simp⟩
      intro hs
      obtain ⟨h1, h2, h3⟩ := hs.execInv
      refine ⟨⟨by simp; omega, by simpa using h2, by simpa using h3⟩, ?_,
        hs.unusedEmpty, hs.usedOne, ?_⟩
      · intro hA
        exact ⟨(hs.handleOwns hA).1, (hs.handleOwns hA).2⟩
      · intro hcs
        exact absurd hcs hsc

/-- The fact bundle carried through a whole trace. -/
theorem run_facts {T : Type} {tr : List (Event T)} {s s1 : Sys}
    (h : run T s tr = some s1) :
    (SysInv s → SysInv s1) ∧
    s.execution.permHolds ≤ s1.execution.permHolds ∧
    (s.execution.tx = CancellationNotification.Disabled →
      s1.execution.tx = CancellationNotification.Disabled) ∧
    (s.cancelled = true → s1.cancelled = true) := by
  induction tr generalizing s with
  | nil =>
    obtain rfl := (Option.some.injEq _ _).mp h
    exact ⟨id, le_refl _, fun a => a, fun a => a⟩
  | cons e tr ih =>
    simp only [run] at h
    cases hst : step T s e with
    | none => rw [hst] at h; cases h
    | some sm =>
      rw [hst] at h
      obtain ⟨g1, g2, g3, g4⟩ := step_facts hst
      obtain ⟨f1, f2, f3, f4⟩ := ih h
      exact ⟨fun hs => f1 (g1 hs), le_trans g2 f2, fun a => f3 (g3 a),
        fun a => f4 (g4 a)⟩

/-- The invariant holds in the initial state. -/
theorem sysInv_init : SysInv initSys := by
  refine ⟨⟨rfl, ?_, rfl⟩, ?_, ?_, ?_, ?_⟩ <;> simp [initSys, initExecution]

/-- Every state reachable from the initial state satisfies the invariant. -/
theorem reach_inv {T : Type} {tr : List (Event T)} {s : Sys}
    (h : run T initSys tr = some s) : SysInv s :=
  (run_facts h).1 sysInv_init

/-- Once the `cancelled` flag is set while the counter is zero, a poll
short-circuits to `Ready(None)` at the pre-poll check without touching the
execution context. -/
theorem pollFut_cz {T : Type} (s : Sys) (ops : List CtxOp) (r : Option T)
    (hc : s.cancelled = true) (hz : s.execution.prevent_cancellation = 0) :
    ∃ s1, pollFut T s ops r = some (s1, Poll.ready none) ∧
      s1.cancelled = true ∧ s1.execution = s.execution := by
  obtain ⟨a1, a2, a3, a4, a5, a6, a7, a8⟩ := startAdjust_facts s
  have hcc : ((startAdjust s).cancelled &&
      (startAdjust s).execution.can_exit) = true := by
    rw [a3, hc, a2]
    simp [ExecutionContextData.can_exit, hz]
  have hpi : pollInner T (startAdjust s) ops r =
      some (startAdjust s, Poll.ready none) := by
    unfold pollInner
    rw [if_pos hcc]
  unfold pollFut
  rw [hpi, Option.map_some']
  simp only [pollExit]
  by_cases hsc : (startAdjust s).state = State.Cancelled
  · rw [if_pos hsc, if_pos (by rw [a2]; simp [ExecutionContextData.can_exit, hz])]
    exact ⟨_, rfl, a3.trans hc, a2⟩
  · rw [if_neg hsc]
    exact ⟨_, rfl, a3.trans hc, a2⟩

/-- The conjunction "flag set and counter zero" is preserved by every step. -/
theorem step_cz {T : Type} {s s1 : Sys} {e : Event T} (h : step T s e = some s1)
    (hc : s.cancelled = true) (hz : s.execution.prevent_cancellation = 0) :
    s1.cancelled = true ∧ s1.execution.prevent_cancellation = 0 := by
  cases e with
  | poll ops r =>
    simp only [step] at h
    split_ifs at h with hT
    rw [Option.map_eq_some'] at h
    obtain ⟨⟨s2, res⟩, hp, hfst⟩ := h
    obtain ⟨t1, hp2, ht1c, ht1e⟩ := pollFut_cz s ops r hc hz
    rw [hp2] at hp
    obtain ⟨h1, _⟩ := (Prod.mk.injEq _ _ _ _).mp ((Option.some.injEq _ _).mp hp)
    rw [show s1 = t1 by rw [← hfst, ← h1]]
    exact ⟨ht1c, by rw [ht1e]; exact hz⟩
  | cancelEvt =>
    obtain ⟨he, hcc, _, _, _, _, _, _⟩ := cancel_facts h
    exact ⟨hcc, by rw [he]; exact hz⟩
  | dropHandle =>
    simp only [step] at h
    split_ifs at h with hA
    obtain rfl := (Option.some.injEq _ _).mp h
    exact ⟨hc, hz⟩
  | dropTask =>
    simp only [step] at h
    split_ifs at h with hT hsc <;>
      obtain rfl := (Option.some.injEq _ _).mp h <;>
      exact ⟨hc, by simp; omega⟩

/-- `step_cz` over a whole trace. -/
theorem run_cz {T : Type} {tr : List (Event T)} {s s1 : Sys}
    (h : run T s tr = some s1)
    (hc : s.cancelled = true) (hz : s.execution.prevent_cancellation = 0) :
    s1.cancelled = true ∧ s1.execution.prevent_cancellation = 0 := by
  induction tr generalizing s with
  | nil =>
    obtain rfl := (Option.some.injEq _ _).mp h
    exact ⟨hc, hz⟩
  | cons e tr ih =>
    simp only [run] at h
    cases hst : step T s e with
    | none => rw [hst] at h; cases h
    | some sm =>
      rw [hst] at h
      obtain ⟨g1, g2⟩ := step_cz hst hc hz
      exact ih h g1 g2

/-- C1: in every trace, from any state in which a poll boundary has read
`cancelled = true` while `prevent_cancellation = 0`, that poll and every
later poll of the task return `Ready(None)`; in particular the task never
again resolves to `Ready(Some v)`. -/
theorem c1_cancel_observed_yields_none (T : Type) (s t : Sys)
    (tr : List (Event T)) (ops : List CtxOp) (r : Option T)
    (hc : s.cancelled = true) (hz : s.execution.prevent_cancellation = 0)
    (hr : run T s tr = some t) :
    ∃ t1, pollFut T t ops r = some (t1, Poll.ready none) := by
  obtain ⟨hc1, hz1⟩ := run_cz hr hc hz
  obtain ⟨t1, hp, _, _⟩ := pollFut_cz t ops r hc1 hz1
  exact ⟨t1, hp⟩

/-- Witness for C1 at the state just after a cancel of a never-polled task,
with the empty continuation trace. -/
theorem c1_witness :
    cancelledSample.cancelled = true ∧
    cancelledSample.execution.prevent_cancellation = 0 ∧
    ∃ t1, pollFut Nat cancelledSample [] none = some (t1, Poll.ready none) :=
  ⟨rfl, rfl,
    c1_cancel_observed_yields_none Nat cancelledSample cancelledSample [] [] none
      rfl rfl rfl⟩

/-- C2: `cancel()` on the never-polled task succeeds, and the first poll
afterwards returns `Ready(None)` without polling the inner future (the
inner-poll counter stays 0) for every possible inner behaviour; the
termination observer then resolves to `Cancelled`. -/
theorem c2_cancel_before_first_poll {T : Type} (ops : List CtxOp) (r : Option T) :
    ∃ s1 s2, cancel initSys = some s1 ∧
      pollFut T s1 ops r = some (s2, Poll.ready none) ∧
      s2.innerPolls = 0 ∧
      observerPoll s2 = some TerminationStatus.Cancelled :=
  ⟨cancelledSample, _, rfl, rfl, rfl, rfl⟩

/-- Witness for C2 at a concrete inner behaviour. -/
theorem c2_witness :
    ∃ s1 s2, cancel initSys = some s1 ∧
      pollFut Nat s1 [CtxOp.enterCS] (some 3) = some (s2, Poll.ready none) ∧
      s2.innerPolls = 0 ∧
      observerPoll s2 = some TerminationStatus.Cancelled :=
  c2_cancel_before_first_poll [CtxOp.enterCS] (some 3)

/-- C4: in every trace in which `cancel()` was called, at most one value is
ever sent on the reply channel, a dropped sender means nothing was sent, and
`ExecutorShutdown` is never sent (it is only synthesised by the receiver). -/
theorem c4_reply_channel_at_most_once (T : Type) (tr : List (Event T)) (s : Sys)
    (h0 : run T initSys tr = some s) (hc : s.cancelled = true) :
    s.replySends.length ≤ 1 ∧
    (s.senderLoc = SenderLoc.dropped → s.replySends = []) ∧
    TerminationStatus.ExecutorShutdown ∉ s.replySends := by
  have hs := reach_inv h0
  by_cases hu : s.senderLoc = SenderLoc.used
  · obtain ⟨v, hv, hne⟩ := hs.usedOne hu
    refine ⟨by rw [hv]; simp, ?_, ?_⟩
    · intro hd
      rw [hd] at hu
      cases hu
    · rw [hv]
      simpa using fun hx => hne hx.symm
  · have he := hs.unusedEmpty hu
    rw [he]
    simp

/-- Witness for C4 on the trace that cancels the never-polled task. -/
theorem c4_witness :
    ∃ s, run Nat initSys [Event.cancelEvt] = some s ∧ s.cancelled = true ∧
      s.replySends.length ≤ 1 ∧
      (s.senderLoc = SenderLoc.dropped → s.replySends = []) ∧
      TerminationStatus.ExecutorShutdown ∉ s.replySends :=
  ⟨cancelledSample, rfl, rfl,
    c4_reply_channel_at_most_once Nat [Event.cancelEvt] cancelledSample rfl rfl⟩

/-- C9: `CriticalSectionGuard::try_to_disable_cancellation` never decrements
`prevent_cancellation` when it succeeds — the guard is retired (one fewer
live guard, one more permanent hold) with its counter contribution kept,
also when the notification is already `Disabled`; a failing call decrements
the counter. -/
theorem c9_guard_try_disable_counter (e : ExecutionContextData)
    (hc : 1 ≤ e.prevent_cancellation) :
    ((guardTryToDisable e).1 = true →
      (guardTryToDisable e).2.prevent_cancellation = e.prevent_cancellation ∧
      (guardTryToDisable e).2.liveGuards = e.liveGuards - 1 ∧
      (guardTryToDisable e).2.permHolds = e.permHolds + 1) ∧
    (e.tx = CancellationNotification.Disabled →
      (guardTryToDisable e).1 = true ∧
      (guardTryToDisable e).2.prevent_cancellation = e.prevent_cancellation) ∧
    ((guardTryToDisable e).1 = false →
      (guardTryToDisable e).2.prevent_cancellation + 1 = e.prevent_cancellation) := by
  cases htx : e.tx <;> simp [guardTryToDisable_spec, htx] <;> omega

/-- Witness for C9 with one live guard and a parked notification. -/
theorem c9_witness :
    (1 : Nat) ≤ (ExecutionContextData.mk CancellationNotification.Disabled 1 1 0 0).prevent_cancellation ∧
    ((guardTryToDisable
        (ExecutionContextData.mk CancellationNotification.Disabled 1 1 0 0)).1 = true ∧
      (guardTryToDisable
        (ExecutionContextData.mk CancellationNotification.Disabled 1 1 0 0)).2.prevent_cancellation = 1) :=
  ⟨by decide,
    (c9_guard_try_disable_counter
      (ExecutionContextData.mk CancellationNotification.Disabled 1 1 0 0)
      (by decide)).2.1 rfl⟩

/-- C10: `cancel()` on an `Exited` task only sets the `cancelled` flag,
consumes the handle and sends `Finished`; the lifecycle state stays `Exited`
and no waker is woken. -/
theorem c10_cancel_on_exited_frame (s : Sys) (hA : s.handleAlive = true)
    (hx : s.state = State.Exited) :
    ∃ s1, cancel s = some s1 ∧
      s1 = { s with cancelled := true, handleAlive := false,
                    replySends := s.replySends ++ [TerminationStatus.Finished],
                    senderLoc := SenderLoc.used } ∧
      s1.state = State.Exited ∧ s1.wakes = s.wakes ∧
      s1.execution = s.execution := by
  refine ⟨_, ?_, rfl, by simpa using hx, rfl, rfl⟩
  unfold cancel
  rw [if_pos hA, hx]

/-- Witness for C10 on a concrete exited state. -/
theorem c10_witness :
    ∃ s1, cancel { initSys with state := State.Exited } = some s1 ∧
      s1 = { initSys with
             state := State.Exited,
             cancelled := true,
             handleAlive := false,
             replySends := [TerminationStatus.Finished],
             senderLoc := SenderLoc.used } ∧
      s1.state = State.Exited ∧ s1.wakes = 0 := by
  obtain ⟨s1, h1, h2, h3, h4, _⟩ :=
    c10_cancel_on_exited_frame { initSys with state := State.Exited } rfl rfl
  exact ⟨s1, h1, h2, h3, h4⟩

/-- C6: inside `poll_inner`, when the cancelled flag was read true at the
start of the poll, the inner future completes, and `can_exit` holds after the
inner poll, the result is overridden to `Ready(None)`; when the flag was read
false at the start, no override happens and the natural `Ready(Some v)` is
returned. -/
theorem c6_post_poll_check (T : Type) (s : Sys) (ops : List CtxOp) (v : T)
    (s2 : Sys) :
    (s.cancelled = true → s.execution.can_exit = false →
      runOps { s with execution := s.execution.notify_cancelled,
                      innerPolls := s.innerPolls + 1 } ops = some s2 →
      s2.execution.can_exit = true →
      pollInner T s ops (some v) = some (s2, Poll.ready none)) ∧
    (s.cancelled = false →
      runOps { s with innerPolls := s.innerPolls + 1 } ops = some s2 →
      pollInner T s ops (some v) = some (s2, Poll.ready (some v))) := by
  constructor
  · intro hc hne hro hcx
    unfold pollInner
    rw [if_neg (by simp [hc, hne]), if_pos hc, hro]
    simp [hc, hcx]
  · intro hc hro
    unfold pollInner
    rw [if_neg (by simp [hc]), if_neg (by simp [hc]), hro]
    simp [hc]

/-- Witness for C6: a cancelled task drops its last guard during the poll
(override fires), and an uncancelled task completes naturally (no override). -/
theorem c6_witness :
    criticalSample.cancelled = true ∧
    criticalSample.execution.can_exit = false ∧
    pollInner Nat criticalSample [CtxOp.dropGuard] (some 5) =
      some ({ criticalSample with
              execution := { tx := CancellationNotification.Notified,
                             prevent_cancellation := 0, liveGuards := 0,
                             notifSends := 1, permHolds := 0 },
              innerPolls := 2 }, Poll.ready none) ∧
    pollInner Nat initSys [] (some 5) =
      some ({ initSys with innerPolls := 1 }, Poll.ready (some 5)) :=
  ⟨rfl, rfl,
    (c6_post_poll_check Nat criticalSample [CtxOp.dropGuard] 5 _).1
      rfl rfl rfl rfl,
    (c6_post_poll_check Nat initSys [] 5 _).2 rfl rfl⟩

/-- C7: over every trace the notification fires at most once, never fires
once `Disabled` (its send count is then 0 and stays 0), and
`notify_cancelled` is the identity in the `Notified` and `Disabled`
sub-states. -/
theorem c7_notification_fires_at_most_once (T : Type) (tr tr2 : List (Event T))
    (s t : Sys) (h0 : run T initSys tr = some s) (h1 : run T s tr2 = some t) :
    s.execution.notifSends ≤ 1 ∧
    (s.execution.tx = CancellationNotification.Disabled →
      s.execution.notifSends = 0) ∧
    (s.execution.tx = CancellationNotification.Disabled →
      t.execution.notifSends = 0) ∧
    (∀ e : ExecutionContextData,
      e.tx = CancellationNotification.Notified ∨
        e.tx = CancellationNotification.Disabled →
      e.notify_cancelled = e) := by
  have hs := reach_inv h0
  have ht : SysInv t := (run_facts h1).1 hs
  refine ⟨?_, ?_, ?_, ?_⟩
  · rw [hs.execInv.sendsEq]
    split_ifs <;> simp
  · intro hd
    rw [hs.execInv.sendsEq, if_neg (by simp [hd])]
  · intro hd
    have htx := (run_facts h1).2.2.1 hd
    rw [ht.execInv.sendsEq, if_neg (by simp [htx])]
  · intro e he
    cases he with
    | inl h => simp [ExecutionContextData.notify_cancelled, h]
    | inr h => simp [ExecutionContextData.notify_cancelled, h]

/-- Witness for C7 at the initial state with empty traces. -/
theorem c7_witness :
    initSys.execution.notifSends ≤ 1 ∧
    (∀ e : ExecutionContextData,
      e.tx = CancellationNotification.Notified ∨
        e.tx = CancellationNotification.Disabled →
      e.notify_cancelled = e) :=
  ⟨(c7_notification_fires_at_most_once Nat [] [] initSys initSys rfl rfl).1,
    (c7_notification_fires_at_most_once Nat [] [] initSys initSys rfl rfl).2.2.2⟩

/-- C8: when a poll completes the task (returns ready, leaving the state
`Exited`) before `cancel()` is called, the later `cancel()` sends `Finished`
as the only value on the reply channel and the termination observer resolves
to `Finished`. -/
theorem c8_finished_after_completion (T : Type) (tr : List (Event T))
    (s s1 s2 : Sys) (ops : List CtxOp) (r : Option T) (x : Option T)
    (h0 : run T initSys tr = some s)
    (hp : pollFut T s ops r = some (s1, Poll.ready x))
    (hc : cancel s1 = some s2) :
    s1.state = State.Exited ∧ s1.replySends = [] ∧
    s2.replySends = [TerminationStatus.Finished] ∧
    observerPoll s2 = some TerminationStatus.Finished := by
  have hs := reach_inv h0
  have hs1 : SysInv s1 := (pollFut_facts hp).1 hs
  have hA : s1.handleAlive = true := (cancel_facts hc).2.2.2.2.2.2.1
  obtain ⟨hsl, hcf⟩ := hs1.handleOwns hA
  have hempty : s1.replySends = [] := hs1.unusedEmpty (by simp [hsl])
  have hexit : s1.state = State.Exited := by
    unfold pollFut at hp
    rw [Option.map_eq_some'] at hp
    obtain ⟨p, hpi, hpe⟩ := hp
    exact pollExit_ready_exited hpe
  unfold cancel at hc
  rw [if_pos hA, hexit] at hc
  obtain rfl := (Option.some.injEq _ _).mp hc
  refine ⟨hexit, hempty, by simp [hempty], by simp [observerPoll, hempty]⟩

/-- Witness for C8: complete the task on its first poll, then cancel. -/
theorem c8_witness :
    pollFut Nat initSys [] (some 0) =
      some (finishedSample, Poll.ready (some 0)) ∧
    cancel finishedSample = some finishedCancelledSample ∧
    finishedCancelledSample.replySends = [TerminationStatus.Finished] ∧
    observerPoll finishedCancelledSample = some TerminationStatus.Finished :=
  ⟨rfl, by decide,
    (c8_finished_after_completion Nat [] initSys finishedSample
      finishedCancelledSample [] (some 0) (some 0) rfl rfl (by decide)).2.2.1,
    (c8_finished_after_completion Nat [] initSys finishedSample
      finishedCancelledSample [] (some 0) (some 0) rfl rfl (by decide)).2.2.2⟩

/-- Inside `poll_inner`, when at least one permanent hold is retained,
neither cancellation check can fire: the result is the inner future's own
result, the invariant and the hold survive, and only `Finished` values can
have been appended to the reply channel by a cancel racing inside the poll. -/
theorem pollInner_no_exit {T : Type} {s sm : Sys} {ops : List CtxOp}
    {r : Option T} {rm : Poll (Option T)}
    (hs : SysInv s) (hperm : 1 ≤ s.execution.permHolds)
    (h : pollInner T s ops r = some (sm, rm)) :
    (rm = Poll.pending ∨ ∃ v, r = some v ∧ rm = Poll.ready (some v)) ∧
    SysInv sm ∧ 1 ≤ sm.execution.permHolds ∧
    ∃ ex, sm.replySends = s.replySends ++ ex ∧
      TerminationStatus.Cancelled ∉ ex := by
  have hce : s.execution.can_exit = false := by
    have h1 := hs.execInv.counterEq
    simp only [ExecutionContextData.can_exit, beq_eq_false_iff_ne, ne_eq]
    omega
  unfold pollInner at h
  rw [if_neg (by simp [hce])] at h
  by_cases hc : s.cancelled = true
  · rw [if_pos hc] at h
    cases hro : runOps
        { s with execution := s.execution.notify_cancelled,
                 innerPolls := s.innerPolls + 1 } ops with
    | none => rw [hro] at h; cases h
    | some s2 =>
      rw [hro] at h
      obtain ⟨f1, f2, f3, f4, f5, f6, f7⟩ := runOps_facts hro
      have hsmInv : SysInv s2 := f1 ⟨execInv_notify hs.execInv, hs.handleOwns,
        hs.unusedEmpty, hs.usedOne, hs.cancelledState⟩
      have hperm2 : 1 ≤ s2.execution.permHolds := by
        calc (1 : Nat) ≤ s.execution.permHolds := hperm
          _ = s.execution.notify_cancelled.permHolds :=
              (notify_frame s.execution).1.symm
          _ ≤ s2.execution.permHolds := f2
      have hce2 : s2.execution.can_exit = false := by
        have h1 := hsmInv.execInv.counterEq
        simp only [ExecutionContextData.can_exit, beq_eq_false_iff_ne, ne_eq]
        omega
      have h9 : (if (s.cancelled && s2.execution.can_exit) = true then
          some (s2, Poll.ready none)
        else
          match r with
          | some v => some (s2, Poll.ready (some v))
          | none => some (s2, Poll.pending)) = some (sm, rm) := h
      rw [if_neg (by simp [hce2])] at h9
      cases r with
      | none =>
        obtain ⟨h5, h6⟩ :=
          (Prod.mk.injEq _ _ _ _).mp ((Option.some.injEq _ _).mp h9)
        rw [← h5, ← h6]
        exact ⟨Or.inl rfl, hsmInv, hperm2, f5⟩
      | some v =>
        obtain ⟨h5, h6⟩ :=
          (Prod.mk.injEq _ _ _ _).mp ((Option.some.injEq _ _).mp h9)
        rw [← h5, ← h6]
        exact ⟨Or.inr ⟨v, rfl, rfl⟩, hsmInv, hperm2, f5⟩
  · rw [if_neg hc] at h
    cases hro : runOps { s with innerPolls := s.innerPolls + 1 } ops with
    | none => rw [hro] at h; cases h
    | some s2 =>
      rw [hro] at h
      obtain ⟨f1, f2, f3, f4, f5, f6, f7⟩ := runOps_facts hro
      have hsmInv : SysInv s2 := f1 ⟨hs.execInv, hs.handleOwns,
        hs.unusedEmpty, hs.usedOne, hs.cancelledState⟩
      have hperm2 : 1 ≤ s2.execution.permHolds := le_trans hperm f2
      have h9 : (if (s.cancelled && s2.execution.can_exit) = true then
          some (s2, Poll.ready none)
        else
          match r with
          | some v => some (s2, Poll.ready (some v))
          | none => some (s2, Poll.pending)) = some (sm, rm) := h
      rw [if_neg (by simp [hc])] at h9
      cases r with
      | none =>
        obtain ⟨h5, h6⟩ :=
          (Prod.mk.injEq _ _ _ _).mp ((Option.some.injEq _ _).mp h9)
        rw [← h5, ← h6]
        exact ⟨Or.inl rfl, hsmInv, hperm2, f5⟩
      | some v =>
        obtain ⟨h5, h6⟩ :=
          (Prod.mk.injEq _ _ _ _).mp ((Option.some.injEq _ _).mp h9)
        rw [← h5, ← h6]
        exact ⟨Or.inr ⟨v, rfl, rfl⟩, hsmInv, hperm2, f5⟩

/-- C3: once a successful `try_to_disable_cancellation` retains a permanent
hold (`permHolds` positive), every later poll never yields `Ready(None)`
(it stays pending or resolves to `Some(_)`), and the termination handoff of
such a poll can only send `Finished`, never `Cancelled`. -/
theorem c3_disable_cancellation_no_none_after (T : Type)
    (tr0 tr : List (Event T)) (s t : Sys) (ops : List CtxOp) (r : Option T)
    (p : Sys × Poll (Option T))
    (h0 : run T initSys tr0 = some s) (hp : 1 ≤ s.execution.permHolds)
    (h1 : run T s tr = some t) (h2 : pollFut T t ops r = some p) :
    p.2 ≠ Poll.ready none ∧
    ∃ ex, p.1.replySends = t.replySends ++ ex ∧
      TerminationStatus.Cancelled ∉ ex := by
  have hs := reach_inv h0
  have ht : SysInv t := (run_facts h1).1 hs
  have hpt : 1 ≤ t.execution.permHolds := le_trans hp (run_facts h1).2.1
  obtain ⟨a1, a2, a3, a4, a5, a6, a7, a8⟩ := startAdjust_facts t
  have ht0 : SysInv (startAdjust t) := a1 ht
  have hpt0 : 1 ≤ (startAdjust t).execution.permHolds := by rw [a2]; exact hpt
  unfold pollFut at h2
  rw [Option.map_eq_some'] at h2
  obtain ⟨⟨sm, rm⟩, hpi, hpe⟩ := h2
  obtain ⟨hrm, hsmInv, hpsm, ⟨ex, hex, hni⟩⟩ := pollInner_no_exit ht0 hpt0 hpi
  have hexr : sm.replySends = t.replySends ++ ex := by rw [a6] at hex; exact hex
  have hce : sm.execution.can_exit = false := by
    have h1x := hsmInv.execInv.counterEq
    simp only [ExecutionContextData.can_exit, beq_eq_false_iff_ne, ne_eq]
    omega
  rcases hrm with hrm | ⟨v, hr, hrm⟩
  · rw [hrm] at hpe
    rw [← hpe]
    exact ⟨by simp [pollExit], ⟨ex, by simpa [pollExit] using hexr, hni⟩⟩
  · rw [hrm] at hpe
    rw [← hpe]
    simp only [pollExit]
    split_ifs with h9 h10
    · rw [h10] at hce
      cases hce
    · refine ⟨by simp, ⟨ex ++ [TerminationStatus.Finished], ?_, ?_⟩⟩
      · show sm.replySends ++ [TerminationStatus.Finished] = _
        rw [hexr, List.append_assoc]
      · intro hm
        rcases List.mem_append.mp hm with hm | hm
        · exact hni hm
        · simp at hm
    · exact ⟨by simp, ⟨ex, hexr, hni⟩⟩

/-- Witness for C3: disable cancellation on the first poll, then poll once
more to completion. -/
theorem c3_witness :
    run Nat initSys [Event.poll [CtxOp.enterCS, CtxOp.tryDisable] none] =
      some disabledSample ∧
    1 ≤ disabledSample.execution.permHolds ∧
    pollFut Nat disabledSample [] (some 7) =
      some (disabledPolledSample, Poll.ready (some 7)) ∧
    ((disabledPolledSample, Poll.ready (some 7)) : Sys × Poll (Option Nat)).2 ≠
      Poll.ready none :=
  ⟨by decide, by decide, by decide,
    (c3_disable_cancellation_no_none_after Nat
      [Event.poll [CtxOp.enterCS, CtxOp.tryDisable] none] [] disabledSample
      disabledSample [] (some 7) (disabledPolledSample, Poll.ready (some 7))
      (by decide) (by decide) rfl (by decide)).1⟩

/-- `DroppedIdle` survives the first-poll adjustment. -/
theorem droppedIdle_startAdjust {s : Sys} (hq : DroppedIdle s) :
    DroppedIdle (startAdjust s) := by
  obtain ⟨a1, a2, a3, a4, a5, a6, a7, a8⟩ := startAdjust_facts s
  exact ⟨a3.trans hq.1, a5.trans hq.2.1, a7.trans hq.2.2.1,
    a6.trans hq.2.2.2.1, fun hx => hq.2.2.2.2 (a8.mp hx)⟩

/-- `DroppedIdle` survives `poll_inner` (the handle is gone, so no context
interaction can cancel). -/
theorem droppedIdle_pollInner {T : Type} {s sm : Sys} {ops : List CtxOp}
    {r : Option T} {rm : Poll (Option T)}
    (h : pollInner T s ops r = some (sm, rm)) (hq : DroppedIdle s) :
    DroppedIdle sm := by
  obtain ⟨f1, f2, f3, f4, f5, f6, f7⟩ := pollInner_facts h
  obtain ⟨fa, fb, fc, fd, fe, ff⟩ := f7 hq.2.1
  exact ⟨fb.trans hq.1, fa, fe.trans hq.2.2.1, fd.trans hq.2.2.2.1,
    fun hx => hq.2.2.2.2 (fc ▸ hx)⟩

/-- `DroppedIdle` survives a whole `poll`, whose result on a completing inner
future is the natural `Ready(Some v)`. -/
theorem droppedIdle_pollFut {T : Type} {s u : Sys} {ops : List CtxOp}
    {r : Option T} {res : Poll (Option T)}
    (h : pollFut T s ops r = some (u, res)) (hq : DroppedIdle s) :
    DroppedIdle u ∧ (∀ v : T, r = some v → res = Poll.ready (some v)) := by
  unfold pollFut at h
  rw [Option.map_eq_some'] at h
  obtain ⟨⟨sm, rm⟩, hpi, hpe⟩ := h
  have hq0 : DroppedIdle (startAdjust s) := droppedIdle_startAdjust hq
  have hqm : DroppedIdle sm := droppedIdle_pollInner hpi hq0
  have hnc : (startAdjust s).cancelled = false := hq0.1
  constructor
  · cases rm with
    | pending =>
      obtain ⟨h5, _⟩ := (Prod.mk.injEq _ _ _ _).mp hpe
      rw [← h5]
      exact hqm
    | ready x =>
      have h9 : (if sm.state = State.Cancelled then
          if sm.execution.can_exit = true then
            ({ sm with state := State.Exited,
                       replySends :=
                         sm.replySends ++ [TerminationStatus.Cancelled],
                       senderLoc := SenderLoc.used },
             Poll.ready none)
          else
            ({ sm with state := State.Exited,
                       replySends :=
                         sm.replySends ++ [TerminationStatus.Finished],
                       senderLoc := SenderLoc.used },
             Poll.ready x)
        else ({ sm with state := State.Exited }, Poll.ready x)) = (u, res) := hpe
      rw [if_neg hqm.2.2.2.2] at h9
      obtain ⟨h5, _⟩ := (Prod.mk.injEq _ _ _ _).mp h9
      rw [← h5]
      exact ⟨hqm.1, hqm.2.1, hqm.2.2.1, hqm.2.2.2.1, by simp⟩
  · intro v hv
    rw [hv] at hpi
    have hrm : rm = Poll.ready (some v) := by
      unfold pollInner at hpi
      rw [if_neg (by simp [hnc]), if_neg (by simp [hnc])] at hpi
      cases hro : runOps
          { startAdjust s with
            innerPolls := (startAdjust s).innerPolls + 1 } ops with
      | none => rw [hro] at hpi; cases hpi
      | some s2 =>
        rw [hro] at hpi
        have h9 : (if ((startAdjust s).cancelled &&
              s2.execution.can_exit) = true then
            some (s2, Poll.ready none)
          else some (s2, Poll.ready (some v))) = some (sm, rm) := hpi
        rw [if_neg (by simp [hnc])] at h9
        obtain ⟨_, h6⟩ :=
          (Prod.mk.injEq _ _ _ _).mp ((Option.some.injEq _ _).mp h9)
        exact h6.symm
    rw [hrm] at hpe
    have h9 : (if sm.state = State.Cancelled then
        if sm.execution.can_exit = true then
          ({ sm with state := State.Exited,
                     replySends :=
                       sm.replySends ++ [TerminationStatus.Cancelled],
                     senderLoc := SenderLoc.used },
           Poll.ready none)
        else
          ({ sm with state := State.Exited,
                     replySends :=
                       sm.replySends ++ [TerminationStatus.Finished],
                     senderLoc := SenderLoc.used },
           Poll.ready (some v))
      else ({ sm with state := State.Exited }, Poll.ready (some v))) =
        (u, res) := hpe
    rw [if_neg hqm.2.2.2.2] at h9
    obtain ⟨_, h6⟩ := (Prod.mk.injEq _ _ _ _).mp h9
    exact h6.symm

/-- `DroppedIdle` survives every trace step. -/
theorem droppedIdle_step {T : Type} {s s1 : Sys} {e : Event T}
    (h : step T s e = some s1) (hq : DroppedIdle s) : DroppedIdle s1 := by
  cases e with
  | poll ops r =>
    simp only [step] at h
    split_ifs at h with hT
    rw [Option.map_eq_some'] at h
    obtain ⟨⟨s2, res⟩, hp, hfst⟩ := h
    rw [← hfst]
    exact (droppedIdle_pollFut hp hq).1
  | cancelEvt =>
    simp only [step] at h
    unfold cancel at h
    rw [if_neg (by simp [hq.2.1])] at h
    cases h
  | dropHandle =>
    simp only [step] at h
    rw [if_neg (by simp [hq.2.1])] at h
    cases h
  | dropTask =>
    simp only [step] at h
    split_ifs at h with hT hsc
    · exact absurd hsc hq.2.2.2.2
    · obtain rfl := (Option.some.injEq _ _).mp h
      exact ⟨hq.1, hq.2.1, hq.2.2.1, hq.2.2.2.1, hq.2.2.2.2⟩

/-- `DroppedIdle` survives every trace. -/
theorem droppedIdle_run {T : Type} {tr : List (Event T)} {s s1 : Sys}
    (h : run T s tr = some s1) (hq : DroppedIdle s) : DroppedIdle s1 := by
  induction tr generalizing s with
  | nil =>
    obtain rfl := (Option.some.injEq _ _).mp h
    exact hq
  | cons e tr ih =>
    simp only [run] at h
    cases hst : step T s e with
    | none => rw [hst] at h; cases h
    | some sm =>
      rw [hst] at h
      exact ih h (droppedIdle_step hst hq)

/-- A `DroppedIdle` task's observer is resolved to `ExecutorShutdown`. -/
theorem droppedIdle_observer {t : Sys} (hq : DroppedIdle t) :
    observerPoll t = some TerminationStatus.ExecutorShutdown := by
  simp [observerPoll, hq.2.2.2.1, hq.2.2.1]

/-- C5 counterexample: drop the handle without cancelling, then let the task
run to completion.  The task reaches `Exited` with `Ready(Some 0)` and was
never cancelled, yet the outstanding termination observer resolves to
`ExecutorShutdown` — refuting the claim that `ExecutorShutdown` occurs only
when the task is dropped before reaching `Exited`. -/
theorem c5_counterexample :
    step Nat initSys Event.dropHandle = some droppedSample ∧
    pollFut Nat droppedSample [] (some 0) =
      some (droppedExitedSample, Poll.ready (some 0)) ∧
    droppedExitedSample.state = State.Exited ∧
    droppedExitedSample.cancelled = false ∧
    observerPoll droppedExitedSample = some TerminationStatus.ExecutorShutdown :=
  ⟨by decide, by decide, rfl, rfl, rfl⟩

/-- C5 amended: dropping the handle without `cancel()` never cancels the task
(the flag stays false and a completing poll still yields `Ready(Some v)`),
but any outstanding termination observer thereafter resolves to
`ExecutorShutdown` — whether or not the task reaches `Exited` — because the
sender was dropped without ever sending. -/
theorem c5_amended_drop_handle_shutdown (T : Type) (tr tr2 : List (Event T))
    (s s1 t : Sys)
    (h0 : run T initSys tr = some s) (hA : s.handleAlive = true)
    (hd : step T s Event.dropHandle = some s1)
    (h1 : run T s1 tr2 = some t) :
    s1.cancelled = false ∧ t.cancelled = false ∧
    observerPoll t = some TerminationStatus.ExecutorShutdown ∧
    (∀ (ops : List CtxOp) (v : T) (u : Sys) (res : Poll (Option T)),
      pollFut T t ops (some v) = some (u, res) →
      res = Poll.ready (some v)) := by
  have hs := reach_inv h0
  obtain ⟨hsl, hcf⟩ := hs.handleOwns hA
  simp only [step] at hd
  rw [if_pos hA] at hd
  obtain rfl := (Option.some.injEq _ _).mp hd
  have hq1 : DroppedIdle
      { s with handleAlive := false, senderLoc := SenderLoc.dropped } := by
    refine ⟨hcf, rfl, rfl, hs.unusedEmpty (by simp [hsl]), ?_⟩
    intro hx
    have hct := (hs.cancelledState hx).1
    rw [hct] at hcf
    cases hcf
  have hqt : DroppedIdle t := droppedIdle_run h1 hq1
  refine ⟨hcf, hqt.1, droppedIdle_observer hqt, ?_⟩
  intro ops v u res hpv
  exact (droppedIdle_pollFut hpv hqt).2 v rfl

/-- Witness for C5's amended claim on the concrete counterexample trace. -/
theorem c5_witness :
    droppedExitedSample.cancelled = false ∧
    observerPoll droppedExitedSample = some TerminationStatus.ExecutorShutdown :=
  ⟨(c5_amended_drop_handle_shutdown Nat [] [Event.poll [] (some 0)] initSys
      droppedSample droppedExitedSample rfl rfl (by decide) (by decide)).2.1,
    (c5_amended_drop_handle_shutdown Nat [] [Event.poll [] (some 0)] initSys
      droppedSample droppedExitedSample rfl rfl (by decide) (by decide)).2.2.1⟩

end CancellationCore
